import Mathlib

/-!
Shallow embedding of the entity-resolution helpers of
`calaccess_processed/management/commands/__init__.py` (class
`LoadOCDModelsCommand`), together with theorems about them.

Django ORM tables are modelled as Lean lists of records.  A queryset
`filter` becomes `List.filter`; `QuerySet.get` returns the unique matching
row or signals `DoesNotExist` / `MultipleObjectsReturned`, exactly as the
ORM raises those exceptions.  Functions that can raise return `Except`.
-/

/-- The exceptions that the modelled code can raise. -/
inductive DjangoError where
  | doesNotExist
  | multipleObjectsReturned
  | indexError
  | nameError
  | exceptionRaised (msg : String)
deriving DecidableEq, Repr

/-- Django `QuerySet.get` semantics over a list-modelled table: the unique
row satisfying `p`, `DoesNotExist` when no row matches and
`MultipleObjectsReturned` when several do. -/
def djangoGet {α : Type} (table : List α) (p : α → Bool) : Except DjangoError α :=
  match table.filter p with
  | [] => .error .doesNotExist
  | [x] => .ok x
  | _ :: _ :: _ => .error .multipleObjectsReturned

instance exceptDecidableEq {ε α : Type} [DecidableEq ε] [DecidableEq α] :
    DecidableEq (Except ε α) := fun a b =>
  match a, b with
  | .ok x, .ok y =>
    if h : x = y then isTrue (congrArg Except.ok h)
    else isFalse fun hh => h (Except.ok.inj hh)
  | .error e, .error f =>
    if h : e = f then isTrue (congrArg Except.error h)
    else isFalse fun hh => h (Except.error.inj hh)
  | .ok _, .error _ => isFalse fun hh => Except.noConfusion hh
  | .error _, .ok _ => isFalse fun hh => Except.noConfusion hh

/-- An `opencivicdata` `Organization` row, with its related `other_names`
(`OrganizationName` rows) and `identifiers` (`OrganizationIdentifier` rows,
holding the numeric CAL-ACCESS party codes) inlined as lists. -/
structure Organization where
  id : Nat
  name : String
  classification : String
  other_names : List String
  identifiers : List Int
  parent : Option Nat
deriving DecidableEq, Repr

/-- `LoadOCDModelsCommand.lookup_party` (lines 606-636 of the source).

The source first runs the external `loadparties` management command when no
`Organization` with classification `party` exists; `orgs` models the
`Organization` table as it stands when the lookups run.  Then, in order:
`get` by exact `name` over the party-classified rows, on `DoesNotExist`
`get` by `other_names__name` over all rows, on `DoesNotExist` `get` the row
named `UNKNOWN`.  Each `get` may also raise `MultipleObjectsReturned`,
which the source does not catch. -/
def lookup_party (orgs : List Organization) (party : String) : Except DjangoError Organization :=
  let party_q := orgs.filter fun o => o.classification == "party"
  match djangoGet party_q (fun o => o.name == party) with
  | .ok o => .ok o
  | .error .doesNotExist =>
    match djangoGet orgs (fun o => o.other_names.contains party) with
    | .ok o => .ok o
    | .error .doesNotExist => djangoGet orgs (fun o => o.name == "UNKNOWN")
    | .error e => .error e
  | .error e => .error e

/-- Claim C2: for every input string `party`, `lookup_party` performs
sequential lookup strategies — first an exact match on the full name of an
Organization classified as a party, then a match on alternate names — and
when neither strategy finds a match it returns the Organization named
`UNKNOWN`. -/
theorem lookup_party_sequential_strategies (orgs : List Organization) (party : String) :
    (∀ o, ((orgs.filter fun x => x.classification == "party").filter fun x => x.name == party) = [o] →
        lookup_party orgs party = .ok o ∧ o.classification = "party" ∧ o.name = party)
    ∧ (((orgs.filter fun x => x.classification == "party").filter fun x => x.name == party) = [] →
        ∀ o, (orgs.filter fun x => x.other_names.contains party) = [o] →
          lookup_party orgs party = .ok o ∧ party ∈ o.other_names)
    ∧ (((orgs.filter fun x => x.classification == "party").filter fun x => x.name == party) = [] →
        (orgs.filter fun x => x.other_names.contains party) = [] →
        ∀ u, (orgs.filter fun x => x.name == "UNKNOWN") = [u] →
          lookup_party orgs party = .ok u ∧ u.name = "UNKNOWN") := by
  refine ⟨?_, ?_, ?_⟩
  · intro o h
    have ho : o ∈ (orgs.filter fun x => x.classification == "party").filter fun x => x.name == party := by
      rw [h]; exact List.mem_singleton_self o
    have h1 := List.mem_filter.mp ho
    have h2 := List.mem_filter.mp h1.1
    refine ⟨?_, by simpa using h2.2, by simpa using h1.2⟩
    unfold lookup_party djangoGet
    simp only [h]
  · intro h0 o h
    have ho : o ∈ orgs.filter fun x => x.other_names.contains party := by
      rw [h]; exact List.mem_singleton_self o
    have h1 := List.mem_filter.mp ho
    refine ⟨?_, by simpa using h1.2⟩
    unfold lookup_party djangoGet
    simp only [h0, h]
  · intro h0 h1 u h
    have hu : u ∈ orgs.filter fun x => x.name == "UNKNOWN" := by
      rw [h]; exact List.mem_singleton_self u
    have h2 := List.mem_filter.mp hu
    refine ⟨?_, by simpa using h2.2⟩
    unfold lookup_party djangoGet
    simp only [h0, h1, h]

/-- A three-organization table used to exercise `lookup_party`. -/
def lookupPartyDemoOrgs : List Organization :=
  [⟨0, "DEMOCRATIC", "party", [], [], none⟩,
   ⟨1, "REPUBLICAN", "party", ["GOP"], [], none⟩,
   ⟨2, "UNKNOWN", "", [], [], none⟩]

/-- Witness for C2: on a concrete table, each of the three strategies fires
as stated. -/
theorem lookup_party_sequential_strategies_witness :
    lookup_party lookupPartyDemoOrgs "DEMOCRATIC" = .ok ⟨0, "DEMOCRATIC", "party", [], [], none⟩
    ∧ lookup_party lookupPartyDemoOrgs "GOP" = .ok ⟨1, "REPUBLICAN", "party", ["GOP"], [], none⟩
    ∧ lookup_party lookupPartyDemoOrgs "GREEN" = .ok ⟨2, "UNKNOWN", "", [], [], none⟩ :=
  ⟨((lookup_party_sequential_strategies lookupPartyDemoOrgs "DEMOCRATIC").1 _ (by decide)).1,
   ((lookup_party_sequential_strategies lookupPartyDemoOrgs "GOP").2.1 (by decide) _ (by decide)).1,
   ((lookup_party_sequential_strategies lookupPartyDemoOrgs "GREEN").2.2 (by decide) (by decide) _ (by decide)).1⟩

/-- A `calaccess_raw` `FilerToFilerTypeCd` row, keeping the three columns
the modelled code reads. -/
structure FilerToFilerTypeCd where
  filer_id : Nat
  effect_dt : Int
  party_cd : Int
deriving DecidableEq, Repr

/-- The queryset `FilerToFilerTypeCd.objects.filter(filer_id=..., effect_dt__lte=...)`
(lines 645-647 of the source). -/
def ftfFiltered (rows : List FilerToFilerTypeCd) (filer_id : Nat) (election_date : Int) :
    List FilerToFilerTypeCd :=
  rows.filter fun r => r.filer_id == filer_id && decide (r.effect_dt ≤ election_date)

/-- Django `QuerySet.latest('effect_dt')`: the row with the greatest
`effect_dt`, `none` on an empty queryset (the ORM raises `DoesNotExist`). -/
def latestEffect : List FilerToFilerTypeCd → Option FilerToFilerTypeCd
  | [] => none
  | x :: xs =>
    match latestEffect xs with
    | none => some x
    | some y => if y.effect_dt > x.effect_dt then some y else some x

/-- The source's in-place rewrite `if party_cd in [16007, 16009]: party_cd = 16012`
(lines 652-654): INDEPENDENT and NON-PARTISAN become NO PARTY PREFERENCE. -/
def transformPartyCd (cd : Int) : Int :=
  if cd = 16007 ∨ cd = 16009 then 16012 else cd

/-- `LoadOCDModelsCommand.get_party_for_filer_id` (lines 638-660 of the
source): take the latest effective `FilerToFilerTypeCd` row for the filer,
rewrite its party code, and look the code up among the `Organization`
identifiers, falling back to the `UNKNOWN` organization. -/
def get_party_for_filer_id (rows : List FilerToFilerTypeCd) (orgs : List Organization)
    (filer_id : Nat) (election_date : Int) : Except DjangoError Organization :=
  match latestEffect (ftfFiltered rows filer_id election_date) with
  | none => djangoGet orgs (fun o => o.name == "UNKNOWN")
  | some row =>
    let party_cd := transformPartyCd row.party_cd
    match djangoGet orgs (fun o => o.identifiers.contains party_cd) with
    | .ok o => .ok o
    | .error .doesNotExist => djangoGet orgs (fun o => o.name == "UNKNOWN")
    | .error e => .error e

theorem latestEffect_mem {l : List FilerToFilerTypeCd} {y : FilerToFilerTypeCd}
    (h : latestEffect l = some y) : y ∈ l := by
  induction l with
  | nil => exact Option.noConfusion h
  | cons x xs ih =>
    unfold latestEffect at h
    cases hxs : latestEffect xs with
    | none =>
      rw [hxs] at h; dsimp only at h
      have := Option.some.inj h
      subst this
      exact List.mem_cons_self x xs
    | some z =>
      rw [hxs] at h; dsimp only at h
      by_cases hgt : z.effect_dt > x.effect_dt
      · rw [if_pos hgt] at h
        have := Option.some.inj h
        subst this
        exact List.mem_cons_of_mem x (ih hxs)
      · rw [if_neg hgt] at h
        have := Option.some.inj h
        subst this
        exact List.mem_cons_self x xs

theorem latestEffect_eq_none {l : List FilerToFilerTypeCd}
    (h : latestEffect l = none) : l = [] := by
  cases l with
  | nil => rfl
  | cons x xs =>
    exfalso
    unfold latestEffect at h
    cases hxs : latestEffect xs with
    | none => rw [hxs] at h; dsimp only at h; exact Option.noConfusion h
    | some z =>
      rw [hxs] at h; dsimp only at h
      by_cases hgt : z.effect_dt > x.effect_dt
      · rw [if_pos hgt] at h; exact Option.noConfusion h
      · rw [if_neg hgt] at h; exact Option.noConfusion h

theorem latestEffect_eq_of_unique_max {l : List FilerToFilerTypeCd} {r : FilerToFilerTypeCd}
    (hr : r ∈ l) (hmax : ∀ s ∈ l, s ≠ r → s.effect_dt < r.effect_dt) :
    latestEffect l = some r := by
  induction l with
  | nil => cases hr
  | cons x xs ih =>
    unfold latestEffect
    cases hlx : latestEffect xs with
    | none =>
      have hxs : xs = [] := latestEffect_eq_none hlx
      subst hxs
      dsimp only
      rcases List.mem_cons.mp hr with h | h
      · rw [h]
      · cases h
    | some y =>
      dsimp only
      have hy : y ∈ xs := latestEffect_mem hlx
      by_cases hxr : x = r
      · have hcond : ¬ y.effect_dt > x.effect_dt := by
          by_cases hyr : y = r
          · rw [hyr, hxr]; omega
          · have h1 := hmax y (List.mem_cons_of_mem x hy) hyr
            rw [hxr]; omega
        rw [if_neg hcond, hxr]
      · have hrxs : r ∈ xs := by
          rcases List.mem_cons.mp hr with h | h
          · exact absurd h.symm hxr
          · exact h
        have hys : latestEffect xs = some r :=
          ih hrxs (fun s hs hsr => hmax s (List.mem_cons_of_mem x hs) hsr)
        rw [hlx] at hys
        have hyr : y = r := Option.some.inj hys
        subst hyr
        have hlt := hmax x (List.mem_cons_self x xs) hxr
        rw [if_pos (by omega)]

/-- A one-row filer-type table whose only row carries party code 16007
(INDEPENDENT). -/
def partyCdCexRows : List FilerToFilerTypeCd := [⟨1, 0, 16007⟩]

/-- An organization table holding an organization whose identifier is
exactly 16007 plus the `UNKNOWN` organization. -/
def partyCdCexOrgs : List Organization :=
  [⟨0, "INDEPENDENT", "party", [], [16007], none⟩,
   ⟨1, "UNKNOWN", "", [], [], none⟩]

/-- Counterexample to claim C3 as stated: a `FilerToFilerTypeCd` row for
filer 1 is effective before the election date and its party code 16007
equals an identifier of the INDEPENDENT organization, yet
`get_party_for_filer_id` returns the `UNKNOWN` organization, because the
source first rewrites the codes 16007 and 16009 to 16012. -/
theorem get_party_for_filer_id_counterexample :
    get_party_for_filer_id partyCdCexRows partyCdCexOrgs 1 5 = .ok ⟨1, "UNKNOWN", "", [], [], none⟩
    ∧ latestEffect (ftfFiltered partyCdCexRows 1 5) = some ⟨1, 0, 16007⟩
    ∧ (⟨0, "INDEPENDENT", "party", [], [16007], none⟩ : Organization) ∈ partyCdCexOrgs
    ∧ (16007 : Int) ∈ (Organization.mk 0 "INDEPENDENT" "party" [] [16007] none).identifiers
    ∧ (Organization.mk 0 "INDEPENDENT" "party" [] [16007] none).name ≠ "UNKNOWN" := by
  refine ⟨by decide, by decide, by decide, by decide, by decide⟩

/-- Claim C3 (amended): `get_party_for_filer_id` returns the `UNKNOWN`
Organization whenever no `FilerToFilerTypeCd` row for the filer is
effective on or before the election date, and also whenever the latest such
row's party code — after the codes 16007 and 16009 are rewritten to
16012 — matches no Organization identifier; otherwise it returns the
Organization whose identifier equals that rewritten party code. -/
theorem get_party_for_filer_id_cases (rows : List FilerToFilerTypeCd) (orgs : List Organization)
    (filer_id : Nat) (election_date : Int) :
    (ftfFiltered rows filer_id election_date = [] →
      ∀ u, (orgs.filter fun o => o.name == "UNKNOWN") = [u] →
        get_party_for_filer_id rows orgs filer_id election_date = .ok u ∧ u.name = "UNKNOWN")
    ∧ (∀ row ∈ ftfFiltered rows filer_id election_date,
        (∀ s ∈ ftfFiltered rows filer_id election_date, s ≠ row → s.effect_dt < row.effect_dt) →
        ((orgs.filter fun o => o.identifiers.contains (transformPartyCd row.party_cd)) = [] →
          ∀ u, (orgs.filter fun o => o.name == "UNKNOWN") = [u] →
            get_party_for_filer_id rows orgs filer_id election_date = .ok u ∧ u.name = "UNKNOWN")
        ∧ (∀ o, (orgs.filter fun x => x.identifiers.contains (transformPartyCd row.party_cd)) = [o] →
            get_party_for_filer_id rows orgs filer_id election_date = .ok o
            ∧ transformPartyCd row.party_cd ∈ o.identifiers)) := by
  constructor
  · intro hempty u hu
    have hmem := List.mem_filter.mp (hu ▸ List.mem_singleton_self u)
    refine ⟨?_, by simpa using hmem.2⟩
    unfold get_party_for_filer_id djangoGet
    rw [hempty]
    simp only [latestEffect, hu]
  · intro row hrow hmax
    have hlatest : latestEffect (ftfFiltered rows filer_id election_date) = some row :=
      latestEffect_eq_of_unique_max hrow hmax
    constructor
    · intro hempty u hu
      have hmem := List.mem_filter.mp (hu ▸ List.mem_singleton_self u)
      refine ⟨?_, by simpa using hmem.2⟩
      unfold get_party_for_filer_id djangoGet
      rw [hlatest]
      simp only [hempty, hu]
    · intro o ho
      have hmem := List.mem_filter.mp (ho ▸ List.mem_singleton_self o)
      refine ⟨?_, by simpa using hmem.2⟩
      unfold get_party_for_filer_id djangoGet
      rw [hlatest]
      simp only [ho]

/-- Witness for the amended C3: on concrete tables the empty case, the
no-matching-identifier case and the matching-identifier case behave as
stated. -/
theorem get_party_for_filer_id_cases_witness :
    get_party_for_filer_id [] partyCdCexOrgs 1 5 = .ok ⟨1, "UNKNOWN", "", [], [], none⟩
    ∧ get_party_for_filer_id partyCdCexRows partyCdCexOrgs 1 5 = .ok ⟨1, "UNKNOWN", "", [], [], none⟩
    ∧ get_party_for_filer_id [⟨1, 0, 16012⟩] partyCdCexOrgs 1 5 = .ok ⟨1, "UNKNOWN", "", [], [], none⟩
    ∧ get_party_for_filer_id [⟨1, 0, 16001⟩]
        [⟨0, "DEMOCRATIC", "party", [], [16001], none⟩] 1 5
        = .ok ⟨0, "DEMOCRATIC", "party", [], [16001], none⟩ :=
  ⟨((get_party_for_filer_id_cases [] partyCdCexOrgs 1 5).1 (by decide) _ (by decide)).1,
   (((get_party_for_filer_id_cases partyCdCexRows partyCdCexOrgs 1 5).2 ⟨1, 0, 16007⟩
      (by decide) (by decide)).1 (by decide) _ (by decide)).1,
   (((get_party_for_filer_id_cases [⟨1, 0, 16012⟩] partyCdCexOrgs 1 5).2 ⟨1, 0, 16012⟩
      (by decide) (by decide)).1 (by decide) _ (by decide)).1,
   (((get_party_for_filer_id_cases [⟨1, 0, 16001⟩]
        [⟨0, "DEMOCRATIC", "party", [], [16001], none⟩] 1 5).2 ⟨1, 0, 16001⟩
      (by decide) (by decide)).2 _ (by decide)).1⟩

/-- An `opencivicdata` `PersonIdentifier` row. -/
structure PersonIdentifier where
  scheme : String
  identifier : String
deriving DecidableEq, Repr

/-- An `opencivicdata` `Person` row with its related identifiers inlined. -/
structure Person where
  id : Nat
  name : String
  sort_name : String
  identifiers : List PersonIdentifier
deriving DecidableEq, Repr

/-- The `Person` table together with the next primary key to hand out. -/
structure PersonDB where
  persons : List Person
  next_id : Nat
deriving DecidableEq, Repr

/-- The ORM filter `identifiers__scheme='calaccess_filer_id',
identifiers__identifier=filer_id` used by both `get_or_create_person` and
`merge_persons`. -/
def hasFilerId (filer_id : String) (p : Person) : Bool :=
  p.identifiers.any fun i => i.scheme == "calaccess_filer_id" && i.identifier == filer_id

/-- The loop of `merge_persons` (lines 685-693 of the source): skip a row
whose primary key equals the survivor's; when name or sort name disagree
the source drops into the interactive debugger and performs no merge (a
no-op here); otherwise `merge(survivor, persons[i])`.  `merge` comes from
the external `opencivicdata.merge` module: it reassigns the related rows of
its second argument (here the identifiers) to the first and deletes the
second. -/
def mergeLoop (db : PersonDB) (survivor : Person) : List Person → PersonDB × Person
  | [] => (db, survivor)
  | p :: ps =>
    if survivor.id ≠ p.id then
      if survivor.name ≠ p.name ∨ survivor.sort_name ≠ p.sort_name then
        mergeLoop db survivor ps
      else
        let survivor' : Person :=
          { survivor with identifiers := survivor.identifiers ++ p.identifiers }
        let remaining : List Person :=
          (db.persons.filter fun q => q.id != p.id).map
            (fun q => if q.id = survivor.id then survivor' else q)
        let db' : PersonDB := { db with persons := remaining }
        mergeLoop db' survivor' ps
    else
      mergeLoop db survivor ps

/-- The closing cleanup of `merge_persons` (lines 696-698 of the source):
delete every `calaccess_filer_id` identifier of the survivor after the
first, keeping the other schemes. -/
def dropDuplicateCalaccessIds (ids : List PersonIdentifier) : List PersonIdentifier :=
  (ids.foldl
    (fun acc i =>
      if i.scheme == "calaccess_filer_id" then
        if acc.2 then acc else (acc.1 ++ [i], true)
      else (acc.1 ++ [i], acc.2))
    ([], false)).1

/-- The survivor after the cleanup guard `if survivor.identifiers.count() > 1`
of `merge_persons` (line 696 of the source). -/
def cleanupSurvivor (s1 : Person) : Person :=
  if s1.identifiers.length > 1 then
    { s1 with identifiers := dropDuplicateCalaccessIds s1.identifiers }
  else s1

/-- Commit the survivor's final row back to the table (the source mutates
the row in place through the ORM). -/
def writeBack (db : PersonDB) (s : Person) : PersonDB :=
  { db with persons := db.persons.map (fun q => if q.id = s.id then s else q) }

/-- `LoadOCDModelsCommand.merge_persons` (lines 662-700 of the source).
`none` models the `IndexError` that `persons[0]` raises on an empty
queryset. -/
def merge_persons (db : PersonDB) (filer_id : String) : Option (PersonDB × Person) :=
  match db.persons.filter (hasFilerId filer_id) with
  | [] => none
  | survivor :: rest =>
    match mergeLoop db survivor rest with
    | (db1, s1) => some (writeBack db1 (cleanupSurvivor s1), cleanupSurvivor s1)

/-- Python `str.split(',')` on the character list: the comma-separated
pieces, keeping empty pieces. -/
def splitOnComma : List Char → List (List Char)
  | [] => [[]]
  | c :: cs =>
    let rest := splitOnComma cs
    if c = ',' then [] :: rest
    else
      match rest with
      | [] => [[c]]
      | r :: rs => (c :: r) :: rs

/-- Python `' '.join(...)` on character lists. -/
def joinSpace : List (List Char) → List Char
  | [] => []
  | [x] => x
  | x :: xs => x ++ ' ' :: joinSpace xs

/-- The whitespace characters Python `str.strip()` removes that can occur
here. -/
def isPySpace (c : Char) : Bool :=
  c == ' ' || c == '\t' || c == '\n' || c == '\r'

/-- Drop whitespace from both ends. -/
def trimChars (cs : List Char) : List Char :=
  ((cs.dropWhile isPySpace).reverse.dropWhile isPySpace).reverse

/-- The name flip of `get_or_create_person` (lines 506-511 of the source):
split the comma-separated sort name, reverse the pieces, join them with
spaces and strip the result. -/
def flipName (name : String) : String :=
  String.mk (trimChars (joinSpace (splitOnComma name.data).reverse))

/-- `LoadOCDModelsCommand.get_or_create_person` (lines 478-520 of the
source).  A `some` filer id equal to the empty string is falsy in Python,
so it triggers neither the lookup nor the identifier creation. -/
def get_or_create_person (db : PersonDB) (name : String) (filer_id : Option String) :
    Except DjangoError (PersonDB × Person × Bool) :=
  let looked : Except DjangoError (PersonDB × Option Person) :=
    match filer_id with
    | some fid =>
      if fid ≠ "" then
        match djangoGet db.persons (hasFilerId fid) with
        | .ok p => .ok (db, some p)
        | .error .multipleObjectsReturned =>
          match merge_persons db fid with
          | some (dbm, s) => .ok (dbm, some s)
          | none => .error .indexError
        | .error .doesNotExist => .ok (db, none)
        | .error e => .error e
      else .ok (db, none)
    | none => .ok (db, none)
  match looked with
  | .error e => .error e
  | .ok (db1, some p) => .ok (db1, p, false)
  | .ok (db1, none) =>
    let newPerson : Person :=
      { id := db1.next_id
        name := flipName name
        sort_name := name
        identifiers :=
          match filer_id with
          | some fid => if fid != "" then [⟨"calaccess_filer_id", fid⟩] else []
          | none => [] }
    .ok (⟨db1.persons ++ [newPerson], db1.next_id + 1⟩, newPerson, true)

/-- Claim C4: for every name and non-empty filer_id, `get_or_create_person`
first attempts an exact match on the `calaccess_filer_id` identifier; if
exactly one Person matches it is returned with `created = False` and the
name argument is never used for matching, and only when no Person matches
is a new Person created (with `created = True`) carrying that filer_id
identifier. -/
theorem get_or_create_person_filer_id_first (db : PersonDB) (name fid : String)
    (hfid : fid ≠ "") :
    (∀ p, db.persons.filter (hasFilerId fid) = [p] →
        get_or_create_person db name (some fid) = .ok (db, p, false)
        ∧ ∀ other_name, get_or_create_person db other_name (some fid)
            = get_or_create_person db name (some fid))
    ∧ (db.persons.filter (hasFilerId fid) = [] →
        get_or_create_person db name (some fid) =
          .ok (⟨db.persons ++ [⟨db.next_id, flipName name, name, [⟨"calaccess_filer_id", fid⟩]⟩],
                db.next_id + 1⟩,
               ⟨db.next_id, flipName name, name, [⟨"calaccess_filer_id", fid⟩]⟩, true))
    ∧ (∀ out, get_or_create_person db name (some fid) = .ok out → out.2.2 = true →
        db.persons.filter (hasFilerId fid) = []) := by
  have hbne : (fid != "") = true := bne_iff_ne.mpr hfid
  refine ⟨?_, ?_, ?_⟩
  · intro p h
    have key : ∀ nm, get_or_create_person db nm (some fid) = .ok (db, p, false) := by
      intro nm
      unfold get_or_create_person djangoGet
      dsimp only
      rw [if_pos hfid, h]
    exact ⟨key name, fun other_name => (key other_name).trans (key name).symm⟩
  · intro h
    unfold get_or_create_person djangoGet
    dsimp only
    rw [if_pos hfid, h]
    simp [hbne]
  · intro out hout htrue
    cases hfil : db.persons.filter (hasFilerId fid) with
    | nil => rfl
    | cons p rest =>
      exfalso
      unfold get_or_create_person djangoGet at hout
      dsimp only at hout
      rw [if_pos hfid, hfil] at hout
      cases rest with
      | nil =>
        dsimp only at hout
        have hf : (false : Bool) = true := by
          have := Except.ok.inj hout
          rw [← this] at htrue
          exact htrue
        exact Bool.noConfusion hf
      | cons q rest2 =>
        dsimp only at hout
        cases hm : merge_persons db fid with
        | none => rw [hm] at hout; exact Except.noConfusion hout
        | some pair =>
          obtain ⟨dbm, s⟩ := pair
          rw [hm] at hout
          dsimp only at hout
          have hf : (false : Bool) = true := by
            have := Except.ok.inj hout
            rw [← this] at htrue
            exact htrue
          exact Bool.noConfusion hf

/-- A one-person table whose person carries filer id `123`. -/
def personDemoDB : PersonDB :=
  ⟨[⟨0, "JOHN SMITH", "SMITH, JOHN", [⟨"calaccess_filer_id", "123"⟩]⟩], 1⟩

/-- Witness for C4: the concrete lookup finds the existing person without
creating, and on an empty table a fresh person carrying the filer id is
created. -/
theorem get_or_create_person_filer_id_first_witness :
    get_or_create_person personDemoDB "X, Y" (some "123")
      = .ok (personDemoDB, ⟨0, "JOHN SMITH", "SMITH, JOHN", [⟨"calaccess_filer_id", "123"⟩]⟩, false)
    ∧ get_or_create_person ⟨[], 0⟩ "SMITH, JOHN" (some "123")
      = .ok (⟨[⟨0, flipName "SMITH, JOHN", "SMITH, JOHN", [⟨"calaccess_filer_id", "123"⟩]⟩], 1⟩,
             ⟨0, flipName "SMITH, JOHN", "SMITH, JOHN", [⟨"calaccess_filer_id", "123"⟩]⟩, true) :=
  ⟨((get_or_create_person_filer_id_first personDemoDB "X, Y" "123" (by decide)).1 _ (by decide)).1,
   (get_or_create_person_filer_id_first ⟨[], 0⟩ "SMITH, JOHN" "123" (by decide)).2.1 (by decide)⟩

theorem cleanupSurvivor_id (s1 : Person) : (cleanupSurvivor s1).id = s1.id := by
  unfold cleanupSurvivor
  split <;> rfl

theorem map_id_replace (l : List Person) (s t : Person) (hts : t.id = s.id) :
    ((l.map (fun q => if q.id = s.id then t else q)).map Person.id) = l.map Person.id := by
  rw [List.map_map]
  apply List.map_congr_left
  intro q hq
  by_cases hqs : q.id = s.id
  · simp [hqs, hts]
  · simp [hqs]

theorem mergeLoop_survivor_fields (rest : List Person) :
    ∀ (db : PersonDB) (s : Person),
      (mergeLoop db s rest).2.id = s.id
      ∧ (mergeLoop db s rest).2.name = s.name
      ∧ (mergeLoop db s rest).2.sort_name = s.sort_name := by
  induction rest with
  | nil => intro db s; exact ⟨rfl, rfl, rfl⟩
  | cons p ps ih =>
    intro db s
    unfold mergeLoop
    by_cases h1 : s.id ≠ p.id
    · rw [if_pos h1]
      by_cases h2 : s.name ≠ p.name ∨ s.sort_name ≠ p.sort_name
      · rw [if_pos h2]; exact ih db s
      · rw [if_neg h2]
        dsimp only
        exact ih _ _
    · rw [if_neg h1]; exact ih db s

theorem mergeLoop_ids_sublist (rest : List Person) :
    ∀ (db : PersonDB) (s : Person),
      ((mergeLoop db s rest).1.persons.map Person.id).Sublist (db.persons.map Person.id) := by
  induction rest with
  | nil => intro db s; exact List.Sublist.refl _
  | cons p ps ih =>
    intro db s
    unfold mergeLoop
    by_cases h1 : s.id ≠ p.id
    · rw [if_pos h1]
      by_cases h2 : s.name ≠ p.name ∨ s.sort_name ≠ p.sort_name
      · rw [if_pos h2]; exact ih db s
      · rw [if_neg h2]
        dsimp only
        refine (ih _ _).trans ?_
        dsimp only
        rw [map_id_replace (db.persons.filter fun q => q.id != p.id) s
          ⟨s.id, s.name, s.sort_name, s.identifiers ++ p.identifiers⟩ rfl]
        exact List.Sublist.map Person.id (List.filter_sublist _)
    · rw [if_neg h1]; exact ih db s

theorem mergeLoop_carrier_elim (rest : List Person) :
    ∀ (db : PersonDB) (s : Person),
      (∀ p ∈ rest, p.id ≠ s.id → p.name = s.name ∧ p.sort_name = s.sort_name) →
      ∀ q ∈ (mergeLoop db s rest).1.persons, q.id ≠ s.id →
        q ∈ db.persons ∧ ∀ p ∈ rest, p.id ≠ s.id → q.id ≠ p.id := by
  induction rest with
  | nil =>
    intro db s _ q hq _
    exact ⟨hq, fun p hp _ => absurd hp (List.not_mem_nil p)⟩
  | cons p ps ih =>
    intro db s hne q hq hqs
    unfold mergeLoop at hq
    by_cases h1 : s.id ≠ p.id
    · rw [if_pos h1] at hq
      by_cases h2 : s.name ≠ p.name ∨ s.sort_name ≠ p.sort_name
      · exfalso
        have hpe := hne p (List.mem_cons_self p ps) (fun hh => h1 hh.symm)
        rcases h2 with h2 | h2
        · exact h2 hpe.1.symm
        · exact h2 hpe.2.symm
      · rw [if_neg h2] at hq
        dsimp only at hq
        have hih := ih
          ⟨(db.persons.filter fun q => q.id != p.id).map
              (fun q => if q.id = s.id then
                ⟨s.id, s.name, s.sort_name, s.identifiers ++ p.identifiers⟩ else q),
            db.next_id⟩
          ⟨s.id, s.name, s.sort_name, s.identifiers ++ p.identifiers⟩
          (fun p' hp' hid => hne p' (List.mem_cons_of_mem p hp') hid) q hq hqs
        obtain ⟨q1, hq1, heq⟩ := List.mem_map.mp hih.1
        by_cases hq1s : q1.id = s.id
        · exfalso
          rw [if_pos hq1s] at heq
          apply hqs
          rw [← heq]
        · rw [if_neg hq1s] at heq
          subst heq
          have hq1f := List.mem_filter.mp hq1
          have hq1p : q1.id ≠ p.id := by
            have := hq1f.2
            simpa using this
          refine ⟨hq1f.1, ?_⟩
          intro p' hp' hp's
          rcases List.mem_cons.mp hp' with hh | hh
          · rw [hh]; exact hq1p
          · exact hih.2 p' hh hp's
    · rw [if_neg h1] at hq
      have hih := ih _ _
        (fun p' hp' hid => hne p' (List.mem_cons_of_mem p hp') hid) q hq hqs
      refine ⟨hih.1, ?_⟩
      intro p' hp' hp's
      rcases List.mem_cons.mp hp' with hh | hh
      · exfalso
        apply h1
        rw [hh] at hp's
        exact fun hss => hp's hss.symm
      · exact hih.2 p' hh hp's

theorem filter_length_le_one_of_unique_key {α : Type} (f : α → Nat) (p : α → Bool)
    (l : List α) (n : Nat) (hnodup : (l.map f).Nodup)
    (hall : ∀ q ∈ l, p q = true → f q = n) :
    (l.filter p).length ≤ 1 := by
  induction l with
  | nil => simp
  | cons x xs ih =>
    rw [List.map_cons] at hnodup
    have hnd := List.nodup_cons.mp hnodup
    by_cases hx : p x = true
    · rw [List.filter_cons_of_pos hx]
      have hempty : xs.filter p = [] := by
        rw [List.filter_eq_nil_iff]
        intro a ha hpa
        have h1 := hall a (List.mem_cons_of_mem x ha) hpa
        have h2 := hall x (List.mem_cons_self x xs) hx
        apply hnd.1
        rw [h2, ← h1]
        exact List.mem_map_of_mem f ha
      rw [hempty]
      exact Nat.le_refl 1
    · rw [List.filter_cons_of_neg (by simpa using hx)]
      exact ih hnd.2 (fun q hq hpq => hall q (List.mem_cons_of_mem x hq) hpq)

/-- Two persons who share filer id `X` but disagree on their names. -/
def mergeCexDB : PersonDB :=
  ⟨[⟨0, "A", "A", [⟨"calaccess_filer_id", "X"⟩]⟩,
    ⟨1, "B", "B", [⟨"calaccess_filer_id", "X"⟩]⟩], 2⟩

/-- Counterexample to claim C1 as stated: two Persons share filer id `X`
but their names differ, so the loop of `merge_persons` drops into the
debugger instead of merging; the call returns with the table unchanged and
both Persons still carry the identifier. -/
theorem merge_persons_counterexample :
    (mergeCexDB.persons.filter (hasFilerId "X")).length = 2
    ∧ merge_persons mergeCexDB "X"
        = some (mergeCexDB, ⟨0, "A", "A", [⟨"calaccess_filer_id", "X"⟩]⟩)
    ∧ ¬ (mergeCexDB.persons.filter (hasFilerId "X")).length ≤ 1 := by
  refine ⟨by decide, by decide, by decide⟩

/-- Claim C1 (amended): when every Person sharing the
`calaccess_filer_id` identifier agrees on `name` and `sort_name` (rows that
disagree are skipped: the source drops into a debugger for them), then
after `merge_persons` returns, at most one Person carries that identifier,
and any carrier left is the returned survivor. -/
theorem merge_persons_at_most_one_carrier (db : PersonDB) (fid : String)
    (hnodup : (db.persons.map Person.id).Nodup)
    (hsame : ∀ p ∈ db.persons, ∀ q ∈ db.persons,
      hasFilerId fid p = true → hasFilerId fid q = true →
      p.name = q.name ∧ p.sort_name = q.sort_name)
    (db' : PersonDB) (s : Person)
    (h : merge_persons db fid = some (db', s)) :
    (db'.persons.filter (hasFilerId fid)).length ≤ 1
    ∧ ∀ q ∈ db'.persons, hasFilerId fid q = true → q.id = s.id := by
  unfold merge_persons at h
  cases hfil : db.persons.filter (hasFilerId fid) with
  | nil => rw [hfil] at h; exact Option.noConfusion h
  | cons survivor rest =>
    rw [hfil] at h
    dsimp only at h
    rcases hml : mergeLoop db survivor rest with ⟨db1, s1⟩
    rw [hml] at h
    dsimp only at h
    have hinj := Option.some.inj h
    have hdb' : writeBack db1 (cleanupSurvivor s1) = db' := congrArg Prod.fst hinj
    have hs' : cleanupSurvivor s1 = s := congrArg Prod.snd hinj
    have hmemfil : ∀ p ∈ survivor :: rest, p ∈ db.persons ∧ hasFilerId fid p = true := by
      intro p hp
      have hpf : p ∈ db.persons.filter (hasFilerId fid) := by rw [hfil]; exact hp
      exact List.mem_filter.mp hpf
    have hcarr : ∀ p ∈ db.persons, hasFilerId fid p = true → p ∈ survivor :: rest := by
      intro p hp hf
      rw [← hfil]
      exact List.mem_filter.mpr ⟨hp, hf⟩
    have hne : ∀ p ∈ rest, p.id ≠ survivor.id →
        p.name = survivor.name ∧ p.sort_name = survivor.sort_name := by
      intro p hp _
      exact hsame p (hmemfil p (List.mem_cons_of_mem survivor hp)).1
        survivor (hmemfil survivor (List.mem_cons_self survivor rest)).1
        (hmemfil p (List.mem_cons_of_mem survivor hp)).2
        (hmemfil survivor (List.mem_cons_self survivor rest)).2
    have hfields := mergeLoop_survivor_fields rest db survivor
    rw [hml] at hfields
    have hs1id : s1.id = survivor.id := hfields.1
    have hsid : s.id = survivor.id := by
      rw [← hs', cleanupSurvivor_id]; exact hs1id
    have hsubl := mergeLoop_ids_sublist rest db survivor
    rw [hml] at hsubl
    have hkey : ∀ q ∈ db'.persons, hasFilerId fid q = true → q.id = s.id := by
      intro q hq hf
      rw [← hdb'] at hq
      unfold writeBack at hq
      dsimp only at hq
      obtain ⟨q1, hq1, heq⟩ := List.mem_map.mp hq
      by_cases hq1s : q1.id = (cleanupSurvivor s1).id
      · rw [if_pos hq1s] at heq
        rw [← heq, hs']
      · rw [if_neg hq1s] at heq
        subst heq
        exfalso
        have hqsurv : q1.id ≠ survivor.id := by
          rw [cleanupSurvivor_id, hs1id] at hq1s
          exact hq1s
        have helim := mergeLoop_carrier_elim rest db survivor hne q1
          (by rw [hml]; exact hq1) hqsurv
        have hq1carr : q1 ∈ survivor :: rest := hcarr q1 helim.1 hf
        rcases List.mem_cons.mp hq1carr with hh | hh
        · exact hqsurv (by rw [hh])
        · by_cases hpid : q1.id = survivor.id
          · exact hqsurv hpid
          · exact helim.2 q1 hh hpid rfl
    refine ⟨?_, hkey⟩
    have hnodup' : (db'.persons.map Person.id).Nodup := by
      rw [← hdb']
      unfold writeBack
      dsimp only
      rw [map_id_replace db1.persons (cleanupSurvivor s1) (cleanupSurvivor s1) rfl]
      exact List.Nodup.sublist hsubl hnodup
    exact filter_length_le_one_of_unique_key Person.id (hasFilerId fid)
      db'.persons s.id hnodup' hkey

/-- Two persons who share filer id `X` and agree on their names. -/
def mergeWitnessDB : PersonDB :=
  ⟨[⟨0, "A", "A", [⟨"calaccess_filer_id", "X"⟩]⟩,
    ⟨1, "A", "A", [⟨"calaccess_filer_id", "X"⟩]⟩], 2⟩

/-- Witness for the amended C1: merging two same-named sharers of filer id
`X` leaves a single carrier. -/
theorem merge_persons_at_most_one_carrier_witness :
    (((⟨[⟨0, "A", "A", [⟨"calaccess_filer_id", "X"⟩]⟩], 2⟩ : PersonDB)).persons.filter
        (hasFilerId "X")).length ≤ 1
    ∧ ∀ q ∈ (⟨[⟨0, "A", "A", [⟨"calaccess_filer_id", "X"⟩]⟩], 2⟩ : PersonDB).persons,
        hasFilerId "X" q = true
        → q.id = (⟨0, "A", "A", [⟨"calaccess_filer_id", "X"⟩]⟩ : Person).id :=
  merge_persons_at_most_one_carrier mergeWitnessDB "X" (by decide) (by decide)
    ⟨[⟨0, "A", "A", [⟨"calaccess_filer_id", "X"⟩]⟩], 2⟩
    ⟨0, "A", "A", [⟨"calaccess_filer_id", "X"⟩]⟩ (by decide)

/-- One entry of the static corrections table
`calaccess_processed.candidate_party_corrections.corrections` (the table
contents live outside the modelled module): the tuple
`(candidate_name, year, election_type, office, party)`, where the party is
the last element `i[-1]` that the lookup extracts. -/
structure Correction where
  candidate_name : String
  year : Int
  election_type : String
  office : String
  party : String
deriving DecidableEq, Repr

/-- `LoadOCDModelsCommand.lookup_candidate_party_correction` (lines 581-604
of the source): filter the static table on all four fields, take the party
of each match, raise when more than one remains, return `None` when none
does. -/
def lookup_candidate_party_correction (corrections : List Correction)
    (candidate_name : String) (year : Int) (election_type office : String) :
    Except DjangoError (Option String) :=
  let filtered := (corrections.filter fun i =>
    i.candidate_name == candidate_name && i.year == year &&
    i.election_type == election_type && i.office == office).map (fun i => i.party)
  if filtered.length > 1 then
    .error (.exceptionRaised "More than one correction found.")
  else
    match filtered with
    | [] => .ok none
    | p :: _ => .ok (some p)

/-- Claim C5: for every (candidate_name, year, election_type, office)
tuple, `lookup_candidate_party_correction` returns None when no entry of
the static corrections table matches all four fields, returns the party of
the unique matching entry when exactly one matches, and raises an exception
when more than one entry matches. -/
theorem lookup_candidate_party_correction_cases (corrections : List Correction)
    (candidate_name : String) (year : Int) (election_type office : String) :
    ((corrections.filter fun i =>
        i.candidate_name == candidate_name && i.year == year &&
        i.election_type == election_type && i.office == office) = [] →
      lookup_candidate_party_correction corrections candidate_name year election_type office
        = .ok none)
    ∧ (∀ c, (corrections.filter fun i =>
        i.candidate_name == candidate_name && i.year == year &&
        i.election_type == election_type && i.office == office) = [c] →
      lookup_candidate_party_correction corrections candidate_name year election_type office
        = .ok (some c.party))
    ∧ (2 ≤ (corrections.filter fun i =>
        i.candidate_name == candidate_name && i.year == year &&
        i.election_type == election_type && i.office == office).length →
      lookup_candidate_party_correction corrections candidate_name year election_type office
        = .error (.exceptionRaised "More than one correction found.")) := by
  refine ⟨?_, ?_, ?_⟩
  · intro h
    unfold lookup_candidate_party_correction
    rw [h]
    rfl
  · intro c h
    unfold lookup_candidate_party_correction
    rw [h]
    rfl
  · intro h2
    unfold lookup_candidate_party_correction
    dsimp only
    rw [if_pos]
    rw [List.length_map]
    omega

/-- A three-entry corrections table with a duplicated tuple. -/
def correctionsDemo : List Correction :=
  [⟨"WINTON, GEORGE", 2016, "PRIMARY", "ASSEMBLY", "REPUBLICAN"⟩,
   ⟨"SMITH, ANN", 2014, "GENERAL", "GOVERNOR", "DEMOCRATIC"⟩,
   ⟨"SMITH, ANN", 2014, "GENERAL", "GOVERNOR", "GREEN"⟩]

/-- Witness for C5: no match yields None, a unique match yields its party,
a double match raises. -/
theorem lookup_candidate_party_correction_cases_witness :
    lookup_candidate_party_correction correctionsDemo "NOBODY" 2000 "PRIMARY" "ASSEMBLY"
      = .ok none
    ∧ lookup_candidate_party_correction correctionsDemo "WINTON, GEORGE" 2016 "PRIMARY" "ASSEMBLY"
      = .ok (some "REPUBLICAN")
    ∧ lookup_candidate_party_correction correctionsDemo "SMITH, ANN" 2014 "GENERAL" "GOVERNOR"
      = .error (.exceptionRaised "More than one correction found.") :=
  ⟨(lookup_candidate_party_correction_cases correctionsDemo "NOBODY" 2000 "PRIMARY" "ASSEMBLY").1
      (by decide),
   (lookup_candidate_party_correction_cases correctionsDemo
      "WINTON, GEORGE" 2016 "PRIMARY" "ASSEMBLY").2.1
      ⟨"WINTON, GEORGE", 2016, "PRIMARY", "ASSEMBLY", "REPUBLICAN"⟩ (by decide),
   (lookup_candidate_party_correction_cases correctionsDemo
      "SMITH, ANN" 2014 "GENERAL" "GOVERNOR").2.2 (by decide)⟩

/-- Days since 1970-01-01 of a proleptic Gregorian date (the standard
`days_from_civil` algorithm), modelling the ordinal arithmetic behind
Python `datetime.date`. -/
def daysFromCivil (y m d : Int) : Int :=
  let y2 := if m ≤ 2 then y - 1 else y
  let era := (if 0 ≤ y2 then y2 else y2 - 399) / 400
  let yoe := y2 - era * 400
  let mp := (m + 9) % 12
  let doy := (153 * mp + 2) / 5 + d - 1
  let doe := yoe * 365 + yoe / 4 - yoe / 100 + doy
  era * 146097 + doe - 719468

/-- Python `date.weekday()`: zero-indexed starting with Monday.
1970-01-01 was a Thursday, weekday 3. -/
def pyWeekday (y m d : Int) : Int :=
  (daysFromCivil y m d + 3) % 7

theorem daysFromCivil_linear (y m d : Int) :
    daysFromCivil y m d = daysFromCivil y m 1 + (d - 1) := by
  unfold daysFromCivil
  dsimp only
  split <;> split <;> omega

theorem pyWeekday_linear (y m d : Int) :
    pyWeekday y m d = (pyWeekday y m 1 + (d - 1)) % 7 := by
  unfold pyWeekday
  rw [daysFromCivil_linear]
  omega

/-- Python `str.upper()`, restricted to the ASCII range that the modelled
call sites use. -/
def pyUpper (s : String) : String := String.mk (s.data.map Char.toUpper)

/-- `LoadOCDModelsCommand.get_regular_election_date` (lines 348-376 of the
source), returning the date as a `(year, month, day)` triple. -/
def get_regular_election_date (year : Int) (election_type : String) :
    Except DjangoError (Int × Int × Int) :=
  if year % 2 ≠ 0 then
    .error (.exceptionRaised "Regular elections occur in even years.")
  else
    match (if pyUpper election_type = "PRIMARY" then some 6
           else if pyUpper election_type = "GENERAL" then some 11
           else none : Option Int) with
    | none => .error (.exceptionRaised "election_type must PRIMARY or GENERAL.")
    | some month =>
      let first_weekday := pyWeekday year month 1
      let day_or_month := (7 - first_weekday) % 7 + 2
      .ok (year, month, day_or_month)

/-- Day `d` of month `m` is the first Tuesday falling after the first
Monday of that month, in terms of the modelled weekday function. -/
def isFirstTuesdayAfterFirstMonday (y m d : Int) : Prop :=
  pyWeekday y m d = 1 ∧ pyWeekday y m (d - 1) = 0
  ∧ ∀ k : Int, 1 ≤ k → k < d - 1 → pyWeekday y m k ≠ 0

theorem pyWeekday_bounds (y m d : Int) : 0 ≤ pyWeekday y m d ∧ pyWeekday y m d < 7 := by
  unfold pyWeekday
  constructor
  · exact Int.emod_nonneg _ (by norm_num)
  · exact Int.emod_lt_of_pos _ (by norm_num)

theorem firstTuesday_correct (y m : Int) :
    isFirstTuesdayAfterFirstMonday y m ((7 - pyWeekday y m 1) % 7 + 2) := by
  have hw := pyWeekday_bounds y m 1
  refine ⟨?_, ?_, ?_⟩
  · rw [pyWeekday_linear]
    omega
  · rw [pyWeekday_linear]
    omega
  · intro k hk1 hk2
    rw [pyWeekday_linear]
    omega

/-- Claim C8: for every even year, `get_regular_election_date` returns the
first Tuesday after the first Monday of June when the election type is
`PRIMARY` (case-insensitively) and of November when it is `GENERAL`; it
raises for every odd year and for every other election type. -/
theorem get_regular_election_date_spec (year : Int) (election_type : String) :
    (year % 2 = 0 → pyUpper election_type = "PRIMARY" →
      ∃ d, get_regular_election_date year election_type = .ok (year, 6, d)
        ∧ isFirstTuesdayAfterFirstMonday year 6 d ∧ 2 ≤ d ∧ d ≤ 8)
    ∧ (year % 2 = 0 → pyUpper election_type = "GENERAL" →
      ∃ d, get_regular_election_date year election_type = .ok (year, 11, d)
        ∧ isFirstTuesdayAfterFirstMonday year 11 d ∧ 2 ≤ d ∧ d ≤ 8)
    ∧ (year % 2 ≠ 0 →
      get_regular_election_date year election_type
        = .error (.exceptionRaised "Regular elections occur in even years."))
    ∧ (year % 2 = 0 → pyUpper election_type ≠ "PRIMARY" → pyUpper election_type ≠ "GENERAL" →
      get_regular_election_date year election_type
        = .error (.exceptionRaised "election_type must PRIMARY or GENERAL.")) := by
  refine ⟨?_, ?_, ?_, ?_⟩
  · intro heven hP
    refine ⟨(7 - pyWeekday year 6 1) % 7 + 2, ?_, firstTuesday_correct year 6, ?_, ?_⟩
    · unfold get_regular_election_date
      rw [if_neg (fun hh => hh heven), if_pos hP]
    · have := Int.emod_nonneg (7 - pyWeekday year 6 1) (by norm_num : (7:Int) ≠ 0)
      omega
    · have := Int.emod_lt_of_pos (7 - pyWeekday year 6 1) (by norm_num : (0:Int) < 7)
      omega
  · intro heven hG
    refine ⟨(7 - pyWeekday year 11 1) % 7 + 2, ?_, firstTuesday_correct year 11, ?_, ?_⟩
    · unfold get_regular_election_date
      rw [if_neg (fun hh => hh heven), if_pos hG]
      by_cases hP : pyUpper election_type = "PRIMARY"
      · rw [hP] at hG; exact absurd hG (by decide)
      · rw [if_neg hP]
    · have := Int.emod_nonneg (7 - pyWeekday year 11 1) (by norm_num : (7:Int) ≠ 0)
      omega
    · have := Int.emod_lt_of_pos (7 - pyWeekday year 11 1) (by norm_num : (0:Int) < 7)
      omega
  · intro hodd
    unfold get_regular_election_date
    rw [if_pos hodd]
  · intro heven hP hG
    unfold get_regular_election_date
    rw [if_neg (fun hh => hh heven), if_neg hP, if_neg hG]

/-- Witness for C8: the 2016 primary date resolves to 2016-06-07 (the first
Tuesday after the first Monday of that June), an odd year raises, and an
unknown election type raises. -/
theorem get_regular_election_date_spec_witness :
    (∃ d, get_regular_election_date 2016 "Primary" = .ok (2016, 6, d)
        ∧ isFirstTuesdayAfterFirstMonday 2016 6 d ∧ 2 ≤ d ∧ d ≤ 8)
    ∧ get_regular_election_date 2015 "PRIMARY"
        = .error (.exceptionRaised "Regular elections occur in even years.")
    ∧ get_regular_election_date 2016 "SPECIAL"
        = .error (.exceptionRaised "election_type must PRIMARY or GENERAL.") :=
  ⟨(get_regular_election_date_spec 2016 "Primary").1 (by decide) (by decide),
   (get_regular_election_date_spec 2015 "PRIMARY").2.2.1 (by decide),
   (get_regular_election_date_spec 2016 "SPECIAL").2.2.2 (by decide) (by decide) (by decide)⟩

/-- The character class `[A-Z ]` of the office regex (ASCII codes 65-90 and
the space, 32). -/
def isOfficeChar (c : Char) : Bool :=
  (decide (65 ≤ c.toNat) && decide (c.toNat ≤ 90)) || decide (c.toNat = 32)

/-- The character class `\d` of the office regex, restricted to the ASCII
digits the data uses (codes 48-57). -/
def isDigitChar (c : Char) : Bool :=
  decide (48 ≤ c.toNat) && decide (c.toNat ≤ 57)

/-- Python `str.strip()` on a string of letters and spaces: drop spaces
from both ends. -/
def stripSpaces (cs : List Char) : List Char :=
  ((cs.dropWhile (· == ' ')).reverse.dropWhile (· == ' ')).reverse

/-- The numeric value of an ASCII digit. -/
def digitVal (c : Char) : Nat := c.toNat - 48

/-- The result dict of `parse_office_name`: exactly the keys `type` and
`district`. -/
structure ParsedOffice where
  type : Option String
  district : Option Nat
deriving DecidableEq, Repr

/-- `LoadOCDModelsCommand.parse_office_name` (lines 395-415 of the source).

`re.match` of the anchored pattern `^(?P<type>[A-Z ]+)(?P<district>\d{2})?$`
against `office_name.upper()`.  Because the two character classes are
disjoint and the pattern is anchored, a match decomposes uniquely: the type
group is the maximal prefix of uppercase letters and spaces and the rest
must be empty or exactly two digits.  The `except AttributeError` branch
(no match) yields both fields None, and `int(None)` raising `TypeError` is
caught, so the source function is total. -/
def parse_office_name (office_name : String) : ParsedOffice :=
  let up := (pyUpper office_name).data
  let t := up.takeWhile isOfficeChar
  let rest := up.dropWhile isOfficeChar
  if t.isEmpty then ⟨none, none⟩
  else
    match rest with
    | [] => ⟨some (String.mk (stripSpaces t)), none⟩
    | [c1, c2] =>
      if isDigitChar c1 && isDigitChar c2 then
        ⟨some (String.mk (stripSpaces t)), some (digitVal c1 * 10 + digitVal c2)⟩
      else ⟨none, none⟩
    | _ => ⟨none, none⟩

/-- The pattern of claim C9 read off the spec words: the string decomposes
into one or more uppercase letters and spaces optionally followed by
exactly two digits.  Stated of a `String` so it can be compared both with
the raw input (the claim) and with the upper-cased input (the code). -/
def matchesOfficePattern (s : String) (t ds : List Char) : Prop :=
  s.data = t ++ ds ∧ t ≠ [] ∧ (∀ c ∈ t, isOfficeChar c = true)
  ∧ (ds = [] ∨ (ds.length = 2 ∧ ∀ c ∈ ds, isDigitChar c = true))

/-- Counterexample to claim C9 as stated: the lower-case string
`governor` does not match the pattern of uppercase letters and spaces, yet
`parse_office_name` returns type `GOVERNOR` rather than `None`, because the
source matches against `office_name.upper()`. -/
theorem parse_office_name_counterexample :
    parse_office_name "governor" = ⟨some "GOVERNOR", none⟩
    ∧ ¬ ∃ t ds, matchesOfficePattern "governor" t ds := by
  constructor
  · decide
  · rintro ⟨t, ds, h1, h2, h3, _⟩
    cases t with
    | nil => exact h2 rfl
    | cons c cs =>
      have h1' : ('g' :: "overnor".data) = c :: (cs ++ ds) := by
        rw [← List.cons_append]
        exact h1
      have hg : 'g' = c := (List.cons.inj h1').1
      have hoc := h3 c (List.mem_cons_self c cs)
      rw [← hg] at hoc
      exact absurd hoc (by decide)

theorem digit_not_office {c : Char} (h : isDigitChar c = true) : isOfficeChar c = false := by
  unfold isDigitChar at h
  unfold isOfficeChar
  rw [Bool.and_eq_true, decide_eq_true_eq, decide_eq_true_eq] at h
  rw [Bool.or_eq_false_iff, Bool.and_eq_false_iff]
  refine ⟨Or.inl ?_, ?_⟩
  · rw [decide_eq_false_iff_not]
    omega
  · rw [decide_eq_false_iff_not]
    omega

theorem takeWhile_append_of_all {p : Char → Bool} (t ds : List Char)
    (ht : ∀ c ∈ t, p c = true)
    (hd : ∀ d tl, ds = d :: tl → p d = false) :
    (t ++ ds).takeWhile p = t ∧ (t ++ ds).dropWhile p = ds := by
  induction t with
  | nil =>
    cases ds with
    | nil => exact ⟨rfl, rfl⟩
    | cons d tl =>
      have hpd := hd d tl rfl
      constructor
      · simp [List.takeWhile_cons, hpd]
      · simp [List.dropWhile_cons, hpd]
  | cons a t ih =>
    have ha := ht a (List.mem_cons_self a t)
    have ih' := ih (fun c hc => ht c (List.mem_cons_of_mem a hc))
    constructor
    · rw [List.cons_append, List.takeWhile_cons, ha]
      simp [ih'.1]
    · rw [List.cons_append, List.dropWhile_cons, ha]
      simp [ih'.2]

instance matchesOfficePatternDecidable (s : String) (t ds : List Char) :
    Decidable (matchesOfficePattern s t ds) := by
  unfold matchesOfficePattern
  infer_instance

/-- Claim C9 (amended): `parse_office_name` is total on strings and always
returns a result with exactly the fields `type` and `district`; the pattern
of uppercase letters and spaces optionally followed by two digits is
matched against the upper-cased input: when the upper-cased input does not
match, both fields are None; a match without digits yields the stripped
type group and district None; a match with two digits yields the stripped
type group and the digits as an integer. -/
theorem parse_office_name_cases (office_name : String) :
    ((¬ ∃ t ds, matchesOfficePattern (pyUpper office_name) t ds) →
        parse_office_name office_name = ⟨none, none⟩)
    ∧ (∀ t, matchesOfficePattern (pyUpper office_name) t [] →
        parse_office_name office_name = ⟨some (String.mk (stripSpaces t)), none⟩)
    ∧ (∀ t c1 c2, matchesOfficePattern (pyUpper office_name) t [c1, c2] →
        parse_office_name office_name
          = ⟨some (String.mk (stripSpaces t)), some (digitVal c1 * 10 + digitVal c2)⟩) := by
  refine ⟨?_, ?_, ?_⟩
  · intro hno
    unfold parse_office_name
    dsimp only
    have hta := (List.takeWhile_append_dropWhile (p := isOfficeChar)
      (l := (pyUpper office_name).data)).symm
    by_cases hemp : ((pyUpper office_name).data.takeWhile isOfficeChar).isEmpty = true
    · rw [if_pos hemp]
    · rw [if_neg hemp]
      have hne : (pyUpper office_name).data.takeWhile isOfficeChar ≠ [] := by
        intro hh
        rw [hh] at hemp
        exact hemp rfl
      have hall : ∀ c ∈ (pyUpper office_name).data.takeWhile isOfficeChar,
          isOfficeChar c = true := fun c hc => List.mem_takeWhile_imp hc
      cases hdrop : (pyUpper office_name).data.dropWhile isOfficeChar with
      | nil =>
        exfalso
        apply hno
        refine ⟨(pyUpper office_name).data.takeWhile isOfficeChar, [], ?_, hne, hall, Or.inl rfl⟩
        rw [List.append_nil]
        rw [hdrop, List.append_nil] at hta
        exact hta
      | cons c1 restl =>
        cases restl with
        | nil => rfl
        | cons c2 rest2 =>
          cases rest2 with
          | nil =>
            dsimp only
            by_cases hdig : (isDigitChar c1 && isDigitChar c2) = true
            · exfalso
              apply hno
              rw [Bool.and_eq_true] at hdig
              refine ⟨(pyUpper office_name).data.takeWhile isOfficeChar, [c1, c2],
                ?_, hne, hall, Or.inr ⟨rfl, ?_⟩⟩
              · rw [hdrop] at hta
                exact hta
              · intro c hc
                rcases List.mem_cons.mp hc with hh | hh
                · rw [hh]; exact hdig.1
                · rw [List.mem_singleton.mp hh]; exact hdig.2
            · rw [if_neg hdig]
          | cons c3 rest3 => rfl
  · intro t hm
    obtain ⟨h1, h2, h3, _⟩ := hm
    have hdec := takeWhile_append_of_all t [] h3 (fun d tl hh => List.noConfusion hh)
    rw [List.append_nil] at hdec
    unfold parse_office_name
    dsimp only
    rw [List.append_nil] at h1
    rw [h1, hdec.1, hdec.2]
    rw [if_neg (by simpa using h2)]
  · intro t c1 c2 hm
    obtain ⟨h1, h2, h3, h4⟩ := hm
    have hdig : isDigitChar c1 = true ∧ isDigitChar c2 = true := by
      rcases h4 with h4 | h4
      · exact absurd h4 (by simp)
      · exact ⟨h4.2 c1 (List.mem_cons_self c1 [c2]),
          h4.2 c2 (List.mem_cons_of_mem c1 (List.mem_singleton_self c2))⟩
    have hdec := takeWhile_append_of_all t [c1, c2] h3
      (fun d tl hh => by
        rw [(List.cons.inj hh).1] at hdig
        exact digit_not_office hdig.1)
    unfold parse_office_name
    dsimp only
    rw [h1, hdec.1, hdec.2]
    rw [if_neg (by simpa using h2)]
    dsimp only
    rw [if_pos (by rw [Bool.and_eq_true]; exact hdig)]

/-- Witness for the amended C9: a non-matching input yields both fields
None, `governor` upper-cases to a match without digits, and `assembly01`
upper-cases to a match with district 1. -/
theorem parse_office_name_cases_witness :
    parse_office_name "1x" = ⟨none, none⟩
    ∧ parse_office_name "governor" = ⟨some (String.mk (stripSpaces "GOVERNOR".data)), none⟩
    ∧ parse_office_name "assembly01"
        = ⟨some (String.mk (stripSpaces "ASSEMBLY".data)), some (digitVal '0' * 10 + digitVal '1')⟩ :=
  ⟨(parse_office_name_cases "1x").1
      (by
        rintro ⟨t, ds, h1, h2, h3, _⟩
        cases t with
        | nil => exact h2 rfl
        | cons c cs =>
          have h1' : ('1' :: "X".data) = c :: (cs ++ ds) := by
            rw [← List.cons_append]
            exact h1
          have hg : '1' = c := (List.cons.inj h1').1
          have hoc := h3 c (List.mem_cons_self c cs)
          rw [← hg] at hoc
          exact absurd hoc (by decide)),
   (parse_office_name_cases "governor").2.1 "GOVERNOR".data (by decide),
   (parse_office_name_cases "assembly01").2.2 "ASSEMBLY".data '0' '1' (by decide)⟩

/-- An `opencivicdata` `Division` row, keeping the columns the modelled
code queries. -/
structure Division where
  id : String
  subid1 : String
  subtype2 : String
  subid2 : String
deriving DecidableEq, Repr

/-- An `opencivicdata` `Post` row; `division` and `organization` hold the
keys of the related rows. -/
structure Post where
  id : Nat
  label : String
  division : String
  organization : Nat
  role : String
deriving DecidableEq, Repr

/-- The state `get_or_create_post` touches: the Division, Organization and
Post tables plus the command attributes assigned in
`LoadOCDModelsCommand.handle` (the CA state division id and the keys of
the executive-branch and Secretary of State organizations). -/
structure OrgState where
  divisions : List Division
  organizations : List Organization
  posts : List Post
  next_org_id : Nat
  next_post_id : Nat
  state_division : String
  executive_branch : Nat
  sos : Nat
deriving DecidableEq, Repr

/-- Python `str.title()` for the ASCII range: uppercase an alphabetic
character whose predecessor is not alphabetic, lowercase the others. -/
def pyTitleAux : List Char → Bool → List Char
  | [], _ => []
  | c :: cs, prevAlpha =>
    (if c.isAlpha then (if prevAlpha then c.toLower else c.toUpper) else c)
      :: pyTitleAux cs c.isAlpha

/-- Python `str.replace('Of', 'of')`: leftmost non-overlapping rewrites. -/
def replaceOfAux : List Char → List Char
  | 'O' :: 'f' :: rest => 'o' :: 'f' :: replaceOfAux rest
  | c :: rest => c :: replaceOfAux rest
  | [] => []

/-- The label built on line 427 of the source:
`office_name.title().replace('Of', 'of')`. -/
def makePostLabel (office_name : String) : String :=
  String.mk (replaceOfAux (pyTitleAux office_name.data false))

/-- Python `str(...)` on the parsed district: `str(None)` is the string
`None`. -/
def pyStrOptNat : Option Nat → String
  | none => "None"
  | some n => toString n

/-- The `raw_post` dict assembled on lines 424-465 of the source. -/
structure RawPost where
  label : String
  division : String
  organization : Nat
  role : String
deriving DecidableEq, Repr

/-- Django `Organization.objects.get_or_create(name=..., classification=...)`:
both fields match and both are set on creation. -/
def orgGetOrCreateByNameClass (st : OrgState) (name classification : String) :
    Except DjangoError (OrgState × Nat) :=
  match djangoGet st.organizations
      (fun o => o.name == name && o.classification == classification) with
  | .ok o => .ok (st, o.id)
  | .error .doesNotExist =>
    let o : Organization := ⟨st.next_org_id, name, classification, [], [], none⟩
    .ok ({ st with
             organizations := st.organizations ++ [o]
             next_org_id := st.next_org_id + 1 }, o.id)
  | .error e => .error e

/-- Django `Organization.objects.get_or_create(name=..., parent=...)` used
for the Board of Equalization; classification is left at its blank
default on creation. -/
def orgGetOrCreateByNameParent (st : OrgState) (name : String) (parent : Nat) :
    Except DjangoError (OrgState × Nat) :=
  match djangoGet st.organizations
      (fun o => o.name == name && o.parent == some parent) with
  | .ok o => .ok (st, o.id)
  | .error .doesNotExist =>
    let o : Organization := ⟨st.next_org_id, name, "", [], [], some parent⟩
    .ok ({ st with
             organizations := st.organizations ++ [o]
             next_org_id := st.next_org_id + 1 }, o.id)
  | .error e => .error e

/-- Lines 424-465 of `get_or_create_post`: parse the office name and
assemble the `raw_post` dict, fetching the division and getting or
creating the chamber organization on demand.  A Senate or Assembly office
whose district is absent from the Division table raises `DoesNotExist`,
which the source does not catch. -/
def build_raw_post (st : OrgState) (office_name : String) :
    Except DjangoError (OrgState × RawPost) :=
  let parsed := parse_office_name office_name
  let label := makePostLabel office_name
  if parsed.type == some "STATE SENATE" then
    match djangoGet st.divisions (fun d =>
        d.subid1 == "ca" && d.subtype2 == "sldu" && d.subid2 == pyStrOptNat parsed.district) with
    | .error e => .error e
    | .ok dv =>
      match orgGetOrCreateByNameClass st "California State Senate" "upper" with
      | .error e => .error e
      | .ok (st1, orgId) => .ok (st1, ⟨label, dv.id, orgId, "Senator"⟩)
  else if parsed.type == some "ASSEMBLY" then
    match djangoGet st.divisions (fun d =>
        d.subid1 == "ca" && d.subtype2 == "sldl" && d.subid2 == pyStrOptNat parsed.district) with
    | .error e => .error e
    | .ok dv =>
      match orgGetOrCreateByNameClass st "California State Assembly" "lower" with
      | .error e => .error e
      | .ok (st1, orgId) => .ok (st1, ⟨label, dv.id, orgId, "Assembly Member"⟩)
  else if parsed.type == some "MEMBER BOARD OF EQUALIZATION" then
    match orgGetOrCreateByNameParent st "State Board of Equalization" st.executive_branch with
    | .error e => .error e
    | .ok (st1, orgId) => .ok (st1, ⟨label, st.state_division, orgId, "Board Member"⟩)
  else if parsed.type == some "SECRETARY OF STATE" then
    .ok (st, ⟨label, st.state_division, st.sos, label⟩)
  else
    .ok (st, ⟨label, st.state_division, st.executive_branch, label⟩)

/-- `LoadOCDModelsCommand.get_or_create_post` (lines 417-476 of the
source).  Returns the post (when any) and the `created` flag; in
`get_only` mode a missing post yields `None`. -/
def get_or_create_post (st : OrgState) (office_name : String) (get_only : Bool) :
    Except DjangoError (OrgState × Option Post × Bool) :=
  match build_raw_post st office_name with
  | .error e => .error e
  | .ok (st1, rp) =>
    if get_only then
      match djangoGet st1.posts (fun p =>
          p.label == rp.label && p.division == rp.division &&
          p.organization == rp.organization && p.role == rp.role) with
      | .ok p => .ok (st1, some p, false)
      | .error .doesNotExist => .ok (st1, none, false)
      | .error e => .error e
    else
      match djangoGet st1.posts (fun p =>
          p.label == rp.label && p.division == rp.division &&
          p.organization == rp.organization && p.role == rp.role) with
      | .ok p => .ok (st1, some p, false)
      | .error .doesNotExist =>
        let newPost : Post := ⟨st1.next_post_id, rp.label, rp.division, rp.organization, rp.role⟩
        .ok ({ st1 with
                 posts := st1.posts ++ [newPost]
                 next_post_id := st1.next_post_id + 1 }, some newPost, true)
      | .error e => .error e

/-- An empty Post table with only the executive-branch organization. -/
def postCexState : OrgState :=
  ⟨[], [⟨0, "California State Executive Branch", "executive", [], [], none⟩],
   [], 1, 0, "ocd-division/country:us/state:ca", 0, 1⟩

/-- Counterexample to claim C7 as stated: with no matching Post for
`GOVERNOR`, `get_only=True` returns no Post at all (None, False) and the
create mode creates a Post labelled `Governor` — in neither mode is any
`UNKNOWN` Post involved. -/
theorem get_or_create_post_counterexample :
    get_or_create_post postCexState "GOVERNOR" true = .ok (postCexState, none, false)
    ∧ get_or_create_post postCexState "GOVERNOR" false
        = .ok (⟨[], [⟨0, "California State Executive Branch", "executive", [], [], none⟩],
                [⟨0, "Governor", "ocd-division/country:us/state:ca", 0, "Governor"⟩],
                1, 1, "ocd-division/country:us/state:ca", 0, 1⟩,
               some ⟨0, "Governor", "ocd-division/country:us/state:ca", 0, "Governor"⟩, true)
    ∧ postCexState.posts = [] := by
  exact ⟨by decide, by decide, rfl⟩

/-- Claim C7 (amended): when no Post matches the attributes built from
`office_name`, `get_or_create_post` does not fall back to an `UNKNOWN`
Post: with `get_only=True` it returns `(None, False)`, and otherwise it
creates and returns a new Post carrying exactly the built attributes with
`created=True`. -/
theorem get_or_create_post_no_match (st : OrgState) (office_name : String)
    (st1 : OrgState) (rp : RawPost)
    (hbuild : build_raw_post st office_name = .ok (st1, rp))
    (hempty : st1.posts.filter (fun p =>
        p.label == rp.label && p.division == rp.division &&
        p.organization == rp.organization && p.role == rp.role) = []) :
    get_or_create_post st office_name true = .ok (st1, none, false)
    ∧ get_or_create_post st office_name false
        = .ok ({ st1 with
                 posts := st1.posts ++
                   [⟨st1.next_post_id, rp.label, rp.division, rp.organization, rp.role⟩]
                 next_post_id := st1.next_post_id + 1 },
               some ⟨st1.next_post_id, rp.label, rp.division, rp.organization, rp.role⟩, true) := by
  constructor
  · unfold get_or_create_post djangoGet
    rw [hbuild]
    dsimp only
    rw [hempty]
    rfl
  · unfold get_or_create_post djangoGet
    rw [hbuild]
    dsimp only
    rw [hempty]
    rfl

/-- Witness for the amended C7: the `GOVERNOR` office on an empty Post
table. -/
theorem get_or_create_post_no_match_witness :
    get_or_create_post postCexState "GOVERNOR" true = .ok (postCexState, none, false)
    ∧ get_or_create_post postCexState "GOVERNOR" false
        = .ok ({ postCexState with
                 posts := postCexState.posts ++
                   [⟨postCexState.next_post_id, "Governor", "ocd-division/country:us/state:ca", 0,
                     "Governor"⟩]
                 next_post_id := postCexState.next_post_id + 1 },
               some ⟨postCexState.next_post_id, "Governor", "ocd-division/country:us/state:ca", 0,
                 "Governor"⟩, true) :=
  get_or_create_post_no_match postCexState "GOVERNOR" postCexState
    ⟨"Governor", "ocd-division/country:us/state:ca", 0, "Governor"⟩
    (by decide) (by decide)

/-- An `opencivicdata` `Candidacy` row; `contest`, `person` and `post`
hold the keys of the related rows. -/
structure Candidacy where
  id : Nat
  contest : Nat
  person : Nat
  post : Nat
  candidate_name : String
  registration_status : String
deriving DecidableEq, Repr

/-- A `CandidateContest` together with the ordered keys of its related
posts (`contest_obj.posts.all()`). -/
structure Contest where
  id : Nat
  posts : List Nat
deriving DecidableEq, Repr

/-- The state `get_or_create_candidacy` touches: the Person table and the
Candidacy table. -/
structure CandidacyState where
  pdb : PersonDB
  candidacies : List Candidacy
  next_candidacy_id : Nat
deriving DecidableEq, Repr

/-- The `registration_status` default the external `opencivicdata`
Candidacy model gives a new row before lines 575-577 overwrite it; no
successful return exposes it. -/
def defaultRegistrationStatus : String := "filed"

/-- Lines 575-577 of the source: overwrite and save the registration
status when it differs from the argument. -/
def finalize_registration_status (st : CandidacyState) (c : Candidacy) (created : Bool)
    (registration_status : String) : CandidacyState × Candidacy × Bool :=
  if c.registration_status ≠ registration_status then
    let c2 : Candidacy := { c with registration_status := registration_status }
    ({ st with candidacies := st.candidacies.map (fun x => if x.id = c.id then c2 else x) },
     c2, created)
  else (st, c, created)

/-- `LoadOCDModelsCommand.get_or_create_candidacy` (lines 522-579 of the
source).

With a truthy filer id: `get_or_create_person`, then
`contest.candidacies.get_or_create` on person, the contest's first post
and the candidate name.  Without one: `get` by the contest's first post
and the person's sort name, where `MultipleObjectsReturned` drops into the
debugger and the following read of the unbound `candidacy` variable raises
(modelled as `nameError`), and `DoesNotExist` creates a fresh Person (no
filer id) and a Candidacy.  An empty post list makes
`contest_obj.posts.all()[0]` raise `IndexError`.  Either way lines 575-579
overwrite a differing registration status before returning. -/
def get_or_create_candidacy (st : CandidacyState) (contest : Contest)
    (person_name registration_status : String) (filer_id : Option String) :
    Except DjangoError (CandidacyState × Candidacy × Bool) :=
  let truthy : Bool := match filer_id with | some s => s != "" | none => false
  if truthy then
    match get_or_create_person st.pdb person_name filer_id with
    | .error e => .error e
    | .ok (pdb1, person, _) =>
      match contest.posts with
      | [] => .error .indexError
      | fp :: _ =>
        let st1 : CandidacyState := { st with pdb := pdb1 }
        match djangoGet st1.candidacies (fun c =>
            c.contest == contest.id && c.person == person.id &&
            c.post == fp && c.candidate_name == person_name) with
        | .ok c => .ok (finalize_registration_status st1 c false registration_status)
        | .error .doesNotExist =>
          let c : Candidacy := ⟨st1.next_candidacy_id, contest.id, person.id, fp,
            person_name, defaultRegistrationStatus⟩
          let st2 : CandidacyState :=
            { st1 with
                candidacies := st1.candidacies ++ [c]
                next_candidacy_id := st1.next_candidacy_id + 1 }
          .ok (finalize_registration_status st2 c true registration_status)
        | .error e => .error e
  else
    match contest.posts with
    | [] => .error .indexError
    | fp :: _ =>
      match djangoGet st.candidacies (fun c =>
          c.contest == contest.id && c.post == fp &&
          st.pdb.persons.any (fun p => p.id == c.person && p.sort_name == person_name)) with
      | .ok c => .ok (finalize_registration_status st c false registration_status)
      | .error .multipleObjectsReturned => .error .nameError
      | .error .doesNotExist =>
        match get_or_create_person st.pdb person_name none with
        | .error e => .error e
        | .ok (pdb1, person, _) =>
          let c : Candidacy := ⟨st.next_candidacy_id, contest.id, person.id, fp,
            person_name, defaultRegistrationStatus⟩
          let st2 : CandidacyState :=
            { st with
                pdb := pdb1
                candidacies := st.candidacies ++ [c]
                next_candidacy_id := st.next_candidacy_id + 1 }
          .ok (finalize_registration_status st2 c true registration_status)
      | .error e => .error e

theorem finalize_registration_status_fields (st : CandidacyState) (c : Candidacy)
    (created : Bool) (rs : String) :
    (finalize_registration_status st c created rs).2.1.registration_status = rs
    ∧ (finalize_registration_status st c created rs).2.1.id = c.id
    ∧ (finalize_registration_status st c created rs).2.1.contest = c.contest
    ∧ (finalize_registration_status st c created rs).2.1.person = c.person
    ∧ (finalize_registration_status st c created rs).2.1.post = c.post
    ∧ (finalize_registration_status st c created rs).2.1.candidate_name = c.candidate_name
    ∧ (finalize_registration_status st c created rs).2.2 = created := by
  unfold finalize_registration_status
  by_cases h : c.registration_status ≠ rs
  · rw [if_pos h]
    exact ⟨rfl, rfl, rfl, rfl, rfl, rfl, rfl⟩
  · rw [if_neg h]
    exact ⟨not_not.mp h, rfl, rfl, rfl, rfl, rfl, rfl⟩

/-- Claim C10: on every successful return of `get_or_create_candidacy`,
the returned Candidacy's registration_status equals the
registration_status argument, both when an existing Candidacy was matched
(its status is overwritten and saved if it differed) and when a new one
was created. -/
theorem get_or_create_candidacy_registration_status (st : CandidacyState) (contest : Contest)
    (person_name registration_status : String) (filer_id : Option String)
    (out : CandidacyState × Candidacy × Bool)
    (h : get_or_create_candidacy st contest person_name registration_status filer_id = .ok out) :
    out.2.1.registration_status = registration_status := by
  unfold get_or_create_candidacy at h
  dsimp only at h
  repeat' split at h
  all_goals
    first
      | exact Except.noConfusion h
      | (rw [← Except.ok.inj h]
         exact (finalize_registration_status_fields _ _ _ _).1)

/-- A contest over posts 1 and 2 whose only candidacy sits on post 2, the
second post. -/
def candCexState : CandidacyState :=
  ⟨⟨[⟨0, "JOHN SMITH", "SMITH, JOHN", []⟩], 1⟩,
   [⟨0, 0, 0, 2, "SMITH, JOHN", "qualified"⟩], 1⟩

/-- The contest with ordered posts 1 and 2. -/
def candCexContest : Contest := ⟨0, [1, 2]⟩

/-- A state whose candidacy sits on post 1, the contest's first post. -/
def candWitState : CandidacyState :=
  ⟨⟨[⟨0, "JOHN SMITH", "SMITH, JOHN", []⟩], 1⟩,
   [⟨0, 0, 0, 1, "SMITH, JOHN", "qualified"⟩], 1⟩

/-- Witness for C10: an existing candidacy with status `qualified` is
matched by sort name and its status is overwritten to the argument. -/
theorem get_or_create_candidacy_registration_status_witness :
    (⟨0, 0, 0, 1, "SMITH, JOHN", "filed"⟩ : Candidacy).registration_status = "filed" :=
  get_or_create_candidacy_registration_status candWitState candCexContest
    "SMITH, JOHN" "filed" none
    (⟨⟨[⟨0, "JOHN SMITH", "SMITH, JOHN", []⟩], 1⟩,
      [⟨0, 0, 0, 1, "SMITH, JOHN", "filed"⟩], 1⟩,
     ⟨0, 0, 0, 1, "SMITH, JOHN", "filed"⟩, false)
    (by decide)

/-- Counterexample to claim C6 as stated: the contest holds a Candidacy
whose person's sort_name equals person_name, but it is linked to the
contest's second post; the source's lookup filters on the FIRST post, so
it misses it and creates a new Person and Candidacy with created=True. -/
theorem get_or_create_candidacy_counterexample :
    (∃ c ∈ candCexState.candidacies, c.contest = candCexContest.id
        ∧ ∃ p ∈ candCexState.pdb.persons, p.id = c.person ∧ p.sort_name = "SMITH, JOHN")
    ∧ get_or_create_candidacy candCexState candCexContest "SMITH, JOHN" "filed" none
        = .ok (⟨⟨[⟨0, "JOHN SMITH", "SMITH, JOHN", []⟩, ⟨1, "JOHN SMITH", "SMITH, JOHN", []⟩], 2⟩,
                [⟨0, 0, 0, 2, "SMITH, JOHN", "qualified"⟩, ⟨1, 0, 1, 1, "SMITH, JOHN", "filed"⟩], 2⟩,
               ⟨1, 0, 1, 1, "SMITH, JOHN", "filed"⟩, true) := by
  exact ⟨by decide, by decide⟩

/-- Claim C6 (amended): called without a filer id,
`get_or_create_candidacy` falls back to name-based matching restricted to
the contest's first post: it looks up an existing Candidacy of the contest
linked to that post whose person's sort_name equals person_name, and only
when none of those exists does it create a new Person and a new Candidacy
with created=True. -/
theorem get_or_create_candidacy_no_filer (st : CandidacyState) (contest : Contest)
    (person_name registration_status : String) (fp : Nat) (restPosts : List Nat)
    (hposts : contest.posts = fp :: restPosts) :
    (∀ c, st.candidacies.filter (fun c =>
        c.contest == contest.id && c.post == fp &&
        st.pdb.persons.any (fun p => p.id == c.person && p.sort_name == person_name)) = [c] →
      get_or_create_candidacy st contest person_name registration_status none
        = .ok (finalize_registration_status st c false registration_status)
      ∧ (finalize_registration_status st c false registration_status).2.2 = false)
    ∧ (st.candidacies.filter (fun c =>
        c.contest == contest.id && c.post == fp &&
        st.pdb.persons.any (fun p => p.id == c.person && p.sort_name == person_name)) = [] →
      get_or_create_candidacy st contest person_name registration_status none
        = .ok (finalize_registration_status
            { st with
                pdb := ⟨st.pdb.persons ++
                  [⟨st.pdb.next_id, flipName person_name, person_name, []⟩], st.pdb.next_id + 1⟩
                candidacies := st.candidacies ++
                  [⟨st.next_candidacy_id, contest.id, st.pdb.next_id, fp,
                    person_name, defaultRegistrationStatus⟩]
                next_candidacy_id := st.next_candidacy_id + 1 }
            ⟨st.next_candidacy_id, contest.id, st.pdb.next_id, fp,
              person_name, defaultRegistrationStatus⟩
            true registration_status)
      ∧ (finalize_registration_status
            { st with
                pdb := ⟨st.pdb.persons ++
                  [⟨st.pdb.next_id, flipName person_name, person_name, []⟩], st.pdb.next_id + 1⟩
                candidacies := st.candidacies ++
                  [⟨st.next_candidacy_id, contest.id, st.pdb.next_id, fp,
                    person_name, defaultRegistrationStatus⟩]
                next_candidacy_id := st.next_candidacy_id + 1 }
            ⟨st.next_candidacy_id, contest.id, st.pdb.next_id, fp,
              person_name, defaultRegistrationStatus⟩
            true registration_status).2.2 = true) := by
  constructor
  · intro c hfil
    refine ⟨?_, (finalize_registration_status_fields _ _ _ _).2.2.2.2.2.2⟩
    unfold get_or_create_candidacy djangoGet
    dsimp only
    rw [hposts]
    dsimp only
    rw [hfil, if_neg Bool.false_ne_true]
  · intro hfil
    refine ⟨?_, (finalize_registration_status_fields _ _ _ _).2.2.2.2.2.2⟩
    unfold get_or_create_candidacy djangoGet
    dsimp only
    rw [hposts]
    dsimp only
    rw [hfil, if_neg Bool.false_ne_true]
    rfl

/-- Witness for the amended C6: a candidacy on the contest's first post is
found (created=False), and with no match a fresh person and candidacy are
created (created=True). -/
theorem get_or_create_candidacy_no_filer_witness :
    (get_or_create_candidacy candWitState candCexContest "SMITH, JOHN" "filed" none
        = .ok (finalize_registration_status candWitState
            ⟨0, 0, 0, 1, "SMITH, JOHN", "qualified"⟩ false "filed")
      ∧ (finalize_registration_status candWitState
            ⟨0, 0, 0, 1, "SMITH, JOHN", "qualified"⟩ false "filed").2.2 = false)
    ∧ (get_or_create_candidacy candCexState candCexContest "SMITH, JOHN" "filed" none
        = .ok (finalize_registration_status
            { candCexState with
                pdb := ⟨candCexState.pdb.persons ++
                  [⟨candCexState.pdb.next_id, flipName "SMITH, JOHN", "SMITH, JOHN", []⟩],
                  candCexState.pdb.next_id + 1⟩
                candidacies := candCexState.candidacies ++
                  [⟨candCexState.next_candidacy_id, candCexContest.id, candCexState.pdb.next_id, 1,
                    "SMITH, JOHN", defaultRegistrationStatus⟩]
                next_candidacy_id := candCexState.next_candidacy_id + 1 }
            ⟨candCexState.next_candidacy_id, candCexContest.id, candCexState.pdb.next_id, 1,
              "SMITH, JOHN", defaultRegistrationStatus⟩
            true "filed")
      ∧ (finalize_registration_status
            { candCexState with
                pdb := ⟨candCexState.pdb.persons ++
                  [⟨candCexState.pdb.next_id, flipName "SMITH, JOHN", "SMITH, JOHN", []⟩],
                  candCexState.pdb.next_id + 1⟩
                candidacies := candCexState.candidacies ++
                  [⟨candCexState.next_candidacy_id, candCexContest.id, candCexState.pdb.next_id, 1,
                    "SMITH, JOHN", defaultRegistrationStatus⟩]
                next_candidacy_id := candCexState.next_candidacy_id + 1 }
            ⟨candCexState.next_candidacy_id, candCexContest.id, candCexState.pdb.next_id, 1,
              "SMITH, JOHN", defaultRegistrationStatus⟩
            true "filed").2.2 = true) :=
  ⟨(get_or_create_candidacy_no_filer candWitState candCexContest "SMITH, JOHN" "filed"
      1 [2] rfl).1 ⟨0, 0, 0, 1, "SMITH, JOHN", "qualified"⟩ (by decide),
   (get_or_create_candidacy_no_filer candCexState candCexContest "SMITH, JOHN" "filed"
      1 [2] rfl).2 (by decide)⟩
